import Mathlib

/-!
Shallow embedding of the ksystemstats_scripts session engine
(src/scripts.cpp, src/scripts.h).

The engine is a per-script session: one child process, a line-oriented
half-duplex request/reply protocol, and two coroutine routines driven by
reply lines — schema discovery (`Script::initSensors`) and value polling
(`Script::updateSensors`).  We embed the coroutines as explicit
continuation states advanced by one reply line at a time, exactly
mirroring the suspension points (`co_await *r.request(...)`) of the
source.  Qt specifics that matter are modelled faithfully:

* `QString::split("\t")` with the default `KeepEmptyParts` behaviour
  (splitting the empty string yields `[""]`), embedded as `splitTab`;
* `QMap<QString,QString>::keys()` iterates keys in ascending string
  order, not insertion order — embedded as the sorted
  `sensorParameterKeys` list (with a lemma relating it to the source's
  insertion order);
* `QVariant::convert` forces the variant to the target type even on
  failure, clearing it to the type's zero value — embedded as `qconvert`;
* floating-point payloads are kept as their decimal text (no claim
  depends on double arithmetic), and `QString::toInt` range/syntax
  checking is embedded as `parseCInt?`.

The `name` SensorProperty created in the `Script` constructor (line 83)
is a sibling registry object, not an element of the `sensors` QList, so
it does not appear in the session state.
-/

/-- KSysGuard::Unit values used by the Str2Unit table (scripts.cpp lines
165-186). -/
inductive KUnit
| unitInvalid
| unitNone
| unitByte
| unitByteRate
| unitHertz
| unitBootTimestamp
| unitSecond
| unitTime
| unitTicks
| unitCelsius
| unitBitRate
| unitDecibelMilliWatts
| unitPercent
| unitRate
| unitRpm
| unitVolt
| unitWatt
| unitWattHour
| unitAmpere
deriving DecidableEq, Repr

/-- The Str2Unit table of `Script::initSensors` (scripts.cpp lines 165-186). -/
def str2UnitTable : List (String × KUnit) :=
  [ ("*", KUnit.unitInvalid)
  , ("-", KUnit.unitNone)
  , ("B", KUnit.unitByte)
  , ("B/s", KUnit.unitByteRate)
  , ("Hz", KUnit.unitHertz)
  , ("Timestamp", KUnit.unitBootTimestamp)
  , ("s", KUnit.unitSecond)
  , ("Time", KUnit.unitTime)
  , ("Ticks", KUnit.unitTicks)
  , ("C", KUnit.unitCelsius)
  , ("b/s", KUnit.unitBitRate)
  , ("dBm", KUnit.unitDecibelMilliWatts)
  , ("%", KUnit.unitPercent)
  , ("rate", KUnit.unitRate)
  , ("rpm", KUnit.unitRpm)
  , ("V", KUnit.unitVolt)
  , ("W", KUnit.unitWatt)
  , ("Wh", KUnit.unitWattHour)
  , ("A", KUnit.unitAmpere) ]

/-- Lookup in the unit table with the `UnitInvalid` default. -/
def unitOf : List (String × KUnit) → String → KUnit
| [], _ => KUnit.unitInvalid
| (c0, u) :: rest, c => if c = c0 then u else unitOf rest c

/-- Unit resolution (scripts.cpp lines 206-212): `unit = UnitInvalid;
if (Str2Unit.contains(code)) unit = Str2Unit[code];`. -/
def str2Unit (code : String) : KUnit :=
  unitOf str2UnitTable code

/-- QVariant value types relevant to the engine.  `QVariant::nameToType`
on an unregistered name yields `QVariant::Invalid`. -/
inductive VType
| tString
| tInt
| tBool
| tDouble
| tInvalid
deriving DecidableEq, Repr

/-- `QVariant::nameToType` (scripts.cpp line 215) restricted to the Qt
type names the engine can meet; every unregistered name maps to
`Invalid`, as in Qt. -/
def nameToType (s : String) : VType :=
  if s = "QString" then VType.tString
  else if s = "int" then VType.tInt
  else if s = "bool" then VType.tBool
  else if s = "double" then VType.tDouble
  else VType.tInvalid

/-- Digits of a decimal literal to a number; `none` on a non-digit or
on an empty list. -/
def digitsToNat? : List Char → Option Nat
| [] => none
| ds => go ds 0
where
  go : List Char → Nat → Option Nat
  | [], acc => some acc
  | c :: cs, acc =>
    if c.isDigit then go cs (acc * 10 + (c.toNat - '0'.toNat)) else none

/-- `QString::toInt` semantics on an already-trimmed line: optional
sign, decimal digits, and the result must fit a 32-bit C++ `int`
(overflow makes the conversion fail). -/
def parseCInt? (s : String) : Option Int :=
  let core : Option Int :=
    match s.data with
    | '+' :: ds => (digitsToNat? ds).map Int.ofNat
    | '-' :: ds => (digitsToNat? ds).map (fun n => -(Int.ofNat n))
    | ds => (digitsToNat? ds).map Int.ofNat
  match core with
  | none => none
  | some v => if -2147483648 ≤ v ∧ v ≤ 2147483647 then some v else none

/-- Syntactic validity of a decimal floating-point literal
(`QString::toDouble` approximation: optional sign, digits, optional
fractional part, optional exponent; at least one digit). -/
def isValidDouble (s : String) : Bool :=
  let afterSign :=
    match s.data with
    | '+' :: ds => ds
    | '-' :: ds => ds
    | ds => ds
  let intPart := afterSign.takeWhile Char.isDigit
  let rest1 := afterSign.dropWhile Char.isDigit
  let (fracPart, rest2) :=
    match rest1 with
    | '.' :: ds => (ds.takeWhile Char.isDigit, ds.dropWhile Char.isDigit)
    | ds => ([], ds)
  let mantissaOk := decide (intPart ≠ [] ∨ fracPart ≠ [])
  let expOk :=
    match rest2 with
    | [] => true
    | 'e' :: ds | 'E' :: ds =>
      let ds2 := match ds with
        | '+' :: ds2 => ds2
        | '-' :: ds2 => ds2
        | ds2 => ds2
      decide (ds2 ≠ []) && ds2.all Char.isDigit
    | _ => false
  mantissaOk && expOk

/-- The payload of a QVariant as the engine can observe it.  Double
payloads are kept as their decimal text; no claim depends on
floating-point arithmetic. -/
inductive MValue
| mStr (s : String)
| mInt (n : Int)
| mBool (b : Bool)
| mDouble (txt : String)
| mInvalid
deriving DecidableEq, Repr

/-- `QVariant::type()` of a stored value. -/
def mtype : MValue → VType
| MValue.mStr _ => VType.tString
| MValue.mInt _ => VType.tInt
| MValue.mBool _ => VType.tBool
| MValue.mDouble _ => VType.tDouble
| MValue.mInvalid => VType.tInvalid

/-- `QVariant(text).convert(t)` — Qt converts a string variant to type
`t`; on failure the variant still takes type `t` but is cleared to its
zero value, and `convert` reports `false` (first component).  A
string-to-bool conversion never fails in Qt: empty, "0" and "false"
give `false`, everything else `true`. -/
def qconvert (text : String) : VType → Bool × MValue
| VType.tString => (true, MValue.mStr text)
| VType.tInt =>
  match parseCInt? text with
  | some n => (true, MValue.mInt n)
  | none => (false, MValue.mInt 0)
| VType.tBool =>
  (true, MValue.mBool (!(text = "" ∨ text = "0" ∨ text = "false" : Bool)))
| VType.tDouble =>
  if isValidDouble text then (true, MValue.mDouble text) else (false, MValue.mDouble "0")
| VType.tInvalid => (false, MValue.mInvalid)

theorem mtype_qconvert (text : String) (t : VType) : mtype (qconvert text t).2 = t := by
  cases t <;> simp [qconvert, mtype]
  · cases parseCInt? text <;> simp [mtype]
  · by_cases h : isValidDouble text <;> simp [h, mtype]

/-- `QString::split('\t')` with Qt's default `KeepEmptyParts`:
splitting the empty string yields `[""]`.  Structural recursion over the
character list so the kernel can evaluate it. -/
def splitTabAux : List Char → List Char → List String
| [], acc => [String.mk acc.reverse]
| c :: cs, acc =>
  if c = '\t' then String.mk acc.reverse :: splitTabAux cs []
  else splitTabAux cs (c :: acc)

def splitTab (s : String) : List String :=
  splitTabAux s.data []

theorem splitTabAux_ne_nil (cs acc : List Char) : splitTabAux cs acc ≠ [] := by
  induction cs generalizing acc with
  | nil => simp [splitTabAux]
  | cons c cs ih =>
    simp only [splitTabAux]
    by_cases h : c = '\t' <;> simp [h, ih]

theorem splitTab_ne_nil (s : String) : splitTab s ≠ [] :=
  splitTabAux_ne_nil s.data []

/-- The line `Request::request(r0, r1)` writes (scripts.cpp line 258),
without the trailing newline:
`request0 + (request1 == "" ? "" : "\t" + request1)`. -/
def requestLine (r0 r1 : String) : String :=
  if r1 = "" then r0 else r0 ++ "\t" ++ r1

/-- Externally visible side effects of the session. -/
inductive OutAct
| writeLine (line : String)
| closeProc
| spawnProc (path : String)
deriving DecidableEq, Repr

example : splitTab "" = [""] := by decide
example : splitTab "cpu\tmem" = ["cpu", "mem"] := by decide
example : splitTab "a\t\tb" = ["a", "", "b"] := by decide
example : parseCInt? "42" = some 42 := by decide
example : parseCInt? "oops" = none := by decide
example : parseCInt? "-7" = some (-7) := by decide
example : str2Unit "B/s" = KUnit.unitByteRate := by decide
example : str2Unit "bogus" = KUnit.unitInvalid := by decide

/-- Sensor descriptor as built by `Script::initSensors`
(scripts.cpp lines 195-225).  `minText`/`maxText` keep the raw reply
text whose `toDouble` the code passes to `setMin`/`setMax` (doubles stay
textual in this embedding); optional fields are `none` exactly when the
corresponding setter was not called (empty reply).  `variantType` is the
local `variant_type` used to coerce the value, which defaults to String
when the parameter reply is empty. -/
structure SensorProperty where
  sensorId : String
  name : String
  shortName : Option String
  pfx : Option String
  description : Option String
  minText : Option String
  maxText : Option String
  unit : Option KUnit
  variantType : VType
  initialValue : String
  value : MValue
deriving DecidableEq, Repr

/-- The sensorParameters QMap keys in the insertion order written in the
source (scripts.cpp lines 152-164). -/
def insertionOrderKeys : List String :=
  [ "initial_value", "name", "short_name", "prefix", "description"
  , "min", "max", "unit", "variant_type", "value" ]

/-- First key delivered by `sensorParameters.keys()`: QMap iterates keys
in ascending string order. -/
def firstKey : String := "description"

/-- The remaining keys delivered by `sensorParameters.keys()` after
`firstKey`, still in ascending order. -/
def tailKeys : List String :=
  [ "initial_value", "max", "min", "name", "prefix"
  , "short_name", "unit", "value", "variant_type" ]

/-- The order in which `for (const auto& sensorParameter :
sensorParameters.keys())` (scripts.cpp line 192) actually visits the
parameters: QMap key order is ascending. -/
def sensorParameterKeys : List String := firstKey :: tailKeys

/-- Lexicographic comparison of strings by character code, the order a
`QMap<QString, _>` sorts its keys by (all keys here are ASCII). -/
def strLeChars : List Char → List Char → Bool
| [], _ => true
| _ :: _, [] => false
| c :: cs, d :: ds =>
  if c.toNat < d.toNat then true
  else if d.toNat < c.toNat then false
  else strLeChars cs ds

def strLe (s t : String) : Bool := strLeChars s.data t.data

def strSorted : List String → Bool
| [] => true
| [_] => true
| s :: t :: rest => strLe s t && strSorted (t :: rest)

/-- `sensorParameterKeys` is exactly the QMap iteration order of the
source's initializer: ascending, and a permutation of the insertion
order. -/
theorem sensorParameterKeys_is_qmap_order :
    strSorted sensorParameterKeys = true ∧
    sensorParameterKeys.Perm insertionOrderKeys := by
  constructor
  · decide
  · decide

/-- Association-list lookup with the QMap `operator[]` default (missing
key reads the default-constructed value, the empty string). -/
def getParam : List (String × String) → String → String
| [], _ => ""
| (k0, v0) :: rest, k => if k = k0 then v0 else getParam rest k

/-- `sensorParameters[k] = v`: overwrite-or-insert. -/
def setParam : List (String × String) → String → String → List (String × String)
| [], k, v => [(k, v)]
| (k0, v0) :: rest, k, v =>
  if k0 = k then (k, v) :: rest else (k0, v0) :: setParam rest k v

theorem getParam_setParam (ps : List (String × String)) (k v k' : String) :
    getParam (setParam ps k v) k' = if k' = k then v else getParam ps k' := by
  induction ps with
  | nil =>
    by_cases h : k' = k <;> simp [setParam, getParam, h]
  | cons p rest ih =>
    obtain ⟨k0, v0⟩ := p
    by_cases h0 : k0 = k
    · subst h0
      by_cases h : k' = k0 <;> simp [setParam, getParam, h]
    · by_cases h : k' = k0
      · subst h
        simp [setParam, h0, getParam]
      · simp [setParam, h0, getParam, h, ih]

/-- Build the descriptor from the collected parameter replies
(scripts.cpp lines 195-225). -/
def buildSensor (sensorName : String) (ps : List (String × String)) : SensorProperty :=
  let vtParam := getParam ps "variant_type"
  let vt := if vtParam ≠ "" then nameToType vtParam else VType.tString
  { sensorId := sensorName
    name := if getParam ps "name" = "" then sensorName else getParam ps "name"
    shortName := if getParam ps "short_name" = "" then none else some (getParam ps "short_name")
    pfx := if getParam ps "prefix" = "" then none else some (getParam ps "prefix")
    description := if getParam ps "description" = "" then none else some (getParam ps "description")
    minText := if getParam ps "min" = "" then none else some (getParam ps "min")
    maxText := if getParam ps "max" = "" then none else some (getParam ps "max")
    unit := if getParam ps "unit" = "" then none else some (str2Unit (getParam ps "unit"))
    variantType := vt
    initialValue := getParam ps "initial_value"
    value := (qconvert (getParam ps "value") vt).2 }

/-- Suspension states of the `initSensors` coroutine.  `awaitList`: the
`?` request was written and its reply is awaited.  `awaitParam pending
current collected key rest`: the request `current\tkey` was written and
its reply is awaited; `pending` are the sensor names still to process
after `current`, `collected` is the sensorParameters map so far (it
persists across sensors, as the QMap is declared outside the loop), and
`rest` are the keys still to query for `current` after `key`. -/
inductive InitCont
| awaitList
| awaitParam (pending : List String) (current : String)
    (collected : List (String × String)) (key : String) (rest : List String)
deriving DecidableEq, Repr

/-- Suspension state of the `updateSensors` coroutine: the request
`sensors[idx].id\tvalue` was written and its reply is awaited. -/
inductive UpdateCont
| awaitValue (idx : Nat)
deriving DecidableEq, Repr

structure InitStepRes where
  cont : Option InitCont
  sensors : List SensorProperty
  acts : List OutAct
deriving DecidableEq, Repr

structure UpdStepRes where
  cont : Option UpdateCont
  sensors : List SensorProperty
  acts : List OutAct
deriving DecidableEq, Repr

/-- One resumption of the `initSensors` coroutine by a reply line
(scripts.cpp lines 188-228): from the suspension point, store the reply,
then run to the next `co_await` (emitting exactly one request) or to
completion (emitting none). -/
def initStep (c : InitCont) (reply : String) (sensors : List SensorProperty) : InitStepRes :=
  match c with
  | InitCont.awaitList =>
    match splitTab reply with
    | [] => ⟨none, sensors, []⟩
    | n :: rest =>
      ⟨some (InitCont.awaitParam rest n [] firstKey tailKeys), sensors,
        [OutAct.writeLine (requestLine n firstKey)]⟩
  | InitCont.awaitParam pending current collected key rest =>
    let collected2 := setParam collected key reply
    match rest with
    | k2 :: ks =>
      ⟨some (InitCont.awaitParam pending current collected2 k2 ks), sensors,
        [OutAct.writeLine (requestLine current k2)]⟩
    | [] =>
      let sensors2 := sensors ++ [buildSensor current collected2]
      match pending with
      | n2 :: rest2 =>
        ⟨some (InitCont.awaitParam rest2 n2 collected2 firstKey tailKeys), sensors2,
          [OutAct.writeLine (requestLine n2 firstKey)]⟩
      | [] => ⟨none, sensors2, []⟩

/-- One resumption of the `updateSensors` coroutine by a reply line
(scripts.cpp lines 242-249): coerce the reply to the current value's
type, overwrite the value unconditionally (clearing to the type's zero
on failure), then request the next sensor's value or finish. -/
def updateStep (idx : Nat) (reply : String) (sensors : List SensorProperty) : UpdStepRes :=
  match sensors[idx]? with
  | none => ⟨none, sensors, []⟩
  | some p =>
    let sensors2 := sensors.set idx { p with value := (qconvert reply (mtype p.value)).2 }
    match sensors[idx+1]? with
    | some q =>
      ⟨some (UpdateCont.awaitValue (idx+1)), sensors2,
        [OutAct.writeLine (requestLine q.sensorId "value")]⟩
    | none => ⟨none, sensors2, []⟩

/-- QProcess state as the session observes it. -/
inductive ProcState
| notRunning
| starting
| running
deriving DecidableEq, Repr

/-- The per-session state: `Script`'s fields.  The coroutine handles
`initSensorsH` / `updateSensorsH` are modelled by the continuation data
`initCont` / `updCont` (`none` = destroyed or never created). -/
structure ScriptState where
  scriptId : String
  scriptPath : String
  procState : ProcState
  sensors : List SensorProperty
  initSensorAct : Bool
  updateSensorsAct : Bool
  initCont : Option InitCont
  updCont : Option UpdateCont
  scriptReply : String
deriving DecidableEq, Repr

/-- Events that drive one session.  `running` is the
`QProcess::stateChanged(Running)` notification (only deliverable while
the process is starting); `reply line` is one complete trimmed line read
by `readyReadStandardOutput` (only while the process runs); `update` is
the host tick `Script::update()`; `restart` is `Script::restart()`. -/
inductive Ev
| running
| reply (line : String)
| update
| restart
deriving DecidableEq, Repr

/-- Start of `Script::initSensors` up to its first suspension
(scripts.cpp lines 146-188): set `initSensorAct`, write `?`, suspend. -/
def startInitSensors (s : ScriptState) : ScriptState × List OutAct :=
  ({ s with initSensorAct := true, initCont := some InitCont.awaitList },
   [OutAct.writeLine "?"])

/-- Start of `Script::updateSensors` up to its first suspension
(scripts.cpp lines 237-252).  With no sensors the coroutine runs to
completion synchronously (the flag is set and immediately cleared). -/
def startUpdateSensors (s : ScriptState) : ScriptState × List OutAct :=
  match s.sensors with
  | [] => (s, [])
  | p :: _ =>
    ({ s with updateSensorsAct := true, updCont := some (UpdateCont.awaitValue 0) },
     [OutAct.writeLine (requestLine p.sensorId "value")])

/-- One event step of the session. -/
def applyEv (s : ScriptState) : Ev → ScriptState × List OutAct
| Ev.running =>
  -- Script::stateChanged (lines 125-130): on Running, start initSensors.
  if s.procState = ProcState.starting then
    startInitSensors { s with procState := ProcState.running }
  else (s, [])
| Ev.reply line =>
  -- Script::readyReadStandardOutput (lines 132-144), one line.
  if s.procState = ProcState.running then
    let s0 := { s with scriptReply := line }
    if s0.initSensorAct then
      match s0.initCont with
      | some c =>
        let t := initStep c line s0.sensors
        ({ s0 with initCont := t.cont, sensors := t.sensors,
                   initSensorAct := t.cont.isSome }, t.acts)
      | none => (s0, [])
    else if s0.updateSensorsAct then
      match s0.updCont with
      | some (UpdateCont.awaitValue idx) =>
        let t := updateStep idx line s0.sensors
        ({ s0 with updCont := t.cont, sensors := t.sensors,
                   updateSensorsAct := t.cont.isSome }, t.acts)
      | none => (s0, [])
    else (s0, [])  -- stray line: logged and dropped
  else (s, [])
| Ev.update =>
  -- Script::update (lines 231-235).
  if !s.updateSensorsAct && !s.initSensorAct then startUpdateSensors s
  else (s, [])
| Ev.restart =>
  -- Script::restart (lines 98-105): close, destroy continuations,
  -- clear flags, start the same executable again.
  ({ s with procState := ProcState.starting,
            initSensorAct := false, updateSensorsAct := false,
            initCont := none, updCont := none },
   [OutAct.closeProc, OutAct.spawnProc s.scriptPath])

/-- Run a list of events, collecting the side effects. -/
def runEvents (s : ScriptState) : List Ev → ScriptState × List OutAct
| [] => (s, [])
| e :: rest =>
  let r1 := applyEv s e
  let r2 := runEvents r1.1 rest
  (r2.1, r1.2 ++ r2.2)

/-- The state right after the `Script` constructor (scripts.cpp lines
77-89): signals connected, process start requested, no sensors in the
`sensors` QList yet, no routine active. -/
def initialScript (absPath relPath : String) : ScriptState :=
  { scriptId := relPath
    scriptPath := absPath
    procState := ProcState.starting
    sensors := []
    initSensorAct := false
    updateSensorsAct := false
    initCont := none
    updCont := none
    scriptReply := "" }

theorem runEvents_append (s : ScriptState) (es1 es2 : List Ev) :
    runEvents s (es1 ++ es2) =
      ((runEvents (runEvents s es1).1 es2).1,
       (runEvents s es1).2 ++ (runEvents (runEvents s es1).1 es2).2) := by
  induction es1 generalizing s with
  | nil => simp [runEvents]
  | cons e rest ih => simp [runEvents, ih, List.append_assoc]

/-- Outcome of one `waitForReadyRead` round inside `Script::waitInit`:
either the wait primitive fails, or it succeeds and the buffered
complete lines `ls` are consumed by `readyReadStandardOutput` (which
loops over every available line). -/
inductive WaitOutcome
| wfail
| wlines (ls : List String)
deriving DecidableEq, Repr

/-- `readyReadStandardOutput` on a burst of buffered lines. -/
def applyLines (s : ScriptState) (ls : List String) : ScriptState :=
  (runEvents s (ls.map Ev.reply)).1

/-- The `while (initSensorAct) { if (!waitForReadyRead()) return false;
readyReadStandardOutput(); }` loop of `Script::waitInit` (scripts.cpp
lines 113-118), fed by a finite schedule of wait outcomes; an exhausted
schedule stands for a wait that never succeeds again (timeout). -/
def pumpInit (s : ScriptState) : List WaitOutcome → Bool × ScriptState
| [] => if s.initSensorAct then (false, s) else (true, s)
| o :: rest =>
  if s.initSensorAct then
    match o with
    | WaitOutcome.wfail => (false, s)
    | WaitOutcome.wlines ls => pumpInit (applyLines s ls) rest
  else (true, s)

/-- `Script::waitInit` (scripts.cpp lines 107-123).  `startOk` is the
outcome of `waitForStarted`: when the process is still starting and the
wait succeeds, the Running transition is delivered synchronously inside
the wait (starting `initSensors`); when it fails, `waitInit` returns
`false` with the session untouched. -/
def waitInit (s : ScriptState) (startOk : Bool) (feed : List WaitOutcome) :
    Bool × ScriptState :=
  match s.procState with
  | ProcState.notRunning => (false, s)
  | ProcState.starting =>
    if startOk then pumpInit (applyEv s Ev.running).1 feed else (false, s)
  | ProcState.running => pumpInit s feed

/-- Number of request lines in a batch of side effects. -/
def countWrites : List OutAct → Nat
| [] => 0
| OutAct.writeLine _ :: rest => countWrites rest + 1
| OutAct.closeProc :: rest => countWrites rest
| OutAct.spawnProc _ :: rest => countWrites rest

/-- Session state plus protocol ghost data: how many request lines are
outstanding (written to the current process incarnation but not yet
answered), and whether a request line was ever written while a previous
one was still unanswered. -/
structure ProtoGhost where
  st : ScriptState
  outstanding : Nat
  violated : Bool
deriving DecidableEq, Repr

/-- One event step with the protocol ghost: a delivered reply line
answers the oldest outstanding request before the resumed routine may
write the next one; `restart` kills the process, discarding whatever was
outstanding on it. -/
def ghostStep (g : ProtoGhost) (e : Ev) : ProtoGhost :=
  let consumed :=
    match e with
    | Ev.reply _ => if g.st.procState = ProcState.running then 1 else 0
    | _ => 0
  let o1 := g.outstanding - consumed
  let r := applyEv g.st e
  let w := countWrites r.2
  let violated2 := g.violated || (decide (0 < w) && decide (0 < o1)) || decide (1 < w)
  let o2 := match e with
    | Ev.restart => 0
    | _ => o1 + w
  { st := r.1, outstanding := o2, violated := violated2 }

def ghostRun (g : ProtoGhost) : List Ev → ProtoGhost
| [] => g
| e :: rest => ghostRun (ghostStep g e) rest

def initialGhost (absPath relPath : String) : ProtoGhost :=
  { st := initialScript absPath relPath, outstanding := 0, violated := false }

/-- An event is prompt when it is not a host `update()` tick delivered
while the child process is still between `start()` and its Running
notification.  In the deployed plugin every `restart()`/construction is
followed in the same event-loop slot by `waitInit()`, whose successful
`waitForStarted` consumes the Running transition before control returns
to the host; the window is only open when `waitForStarted` times out. -/
def promptOk (s : ScriptState) : Ev → Bool
| Ev.update => s.procState != ProcState.starting
| _ => true

def promptTrace (s : ScriptState) : List Ev → Bool
| [] => true
| e :: rest => promptOk s e && promptTrace (applyEv s e).1 rest

/-- The inductive session invariant: discovery and polling never active
together, nothing active while the process is starting, active routines
have live continuations, exactly one request outstanding iff a routine
is suspended, and no half-duplex violation so far. -/
def GhostInv (g : ProtoGhost) : Prop :=
  ¬ (g.st.initSensorAct = true ∧ g.st.updateSensorsAct = true)
  ∧ (g.st.procState = ProcState.starting →
      g.st.initSensorAct = false ∧ g.st.updateSensorsAct = false)
  ∧ (g.st.initSensorAct = true → g.st.initCont.isSome)
  ∧ (g.st.updateSensorsAct = true → g.st.updCont.isSome)
  ∧ g.outstanding =
      (if g.st.initSensorAct = true ∨ g.st.updateSensorsAct = true then 1 else 0)
  ∧ g.violated = false

theorem initStep_writes (c : InitCont) (reply : String) (ss : List SensorProperty) :
    countWrites (initStep c reply ss).acts =
      if (initStep c reply ss).cont.isSome then 1 else 0 := by
  cases c with
  | awaitList =>
    cases h : splitTab reply with
    | nil => simp [initStep, h, countWrites]
    | cons n rest => simp [initStep, h, countWrites]
  | awaitParam pending current collected key rest =>
    cases rest with
    | cons k2 ks => simp [initStep, countWrites]
    | nil =>
      cases pending with
      | nil => simp [initStep, countWrites]
      | cons n2 rest2 => simp [initStep, countWrites]

theorem updateStep_writes (idx : Nat) (reply : String) (ss : List SensorProperty) :
    countWrites (updateStep idx reply ss).acts =
      if (updateStep idx reply ss).cont.isSome then 1 else 0 := by
  cases h : ss[idx]? with
  | none => simp [updateStep, h, countWrites]
  | some p =>
    cases h2 : ss[idx+1]? with
    | none => simp [updateStep, h, h2, countWrites]
    | some q => simp [updateStep, h, h2, countWrites]

theorem ghostStep_st (g : ProtoGhost) (e : Ev) :
    (ghostStep g e).st = (applyEv g.st e).1 := rfl

theorem ghostRun_st (g : ProtoGhost) (es : List Ev) :
    (ghostRun g es).st = (runEvents g.st es).1 := by
  induction es generalizing g with
  | nil => simp [ghostRun, runEvents]
  | cons e rest ih =>
    simp only [ghostRun, runEvents]
    rw [ih, ghostStep_st]

theorem ghostStep_inv (g : ProtoGhost) (e : Ev)
    (hInv : GhostInv g) (hp : promptOk g.st e = true) :
    GhostInv (ghostStep g e) := by
  obtain ⟨st, o, v⟩ := g
  obtain ⟨h1, h2, h3, h4, h5, h6⟩ := hInv
  simp only at h1 h2 h3 h4 h5 h6 hp
  subst h6
  cases e with
  | running =>
    by_cases hps : st.procState = ProcState.starting
    · obtain ⟨hia, hua⟩ := h2 hps
      simp [hia, hua] at h5
      subst h5
      simp [GhostInv, ghostStep, applyEv, hps, startInitSensors, countWrites,
        hia, hua]
    · have heq : ghostStep ⟨st, o, false⟩ Ev.running = ⟨st, o, false⟩ := by
        simp [ghostStep, applyEv, hps, countWrites]
      rw [heq]
      exact ⟨h1, h2, h3, h4, h5, rfl⟩
  | restart =>
    simp [GhostInv, ghostStep, applyEv, countWrites]
  | update =>
    replace hp : st.procState ≠ ProcState.starting := by
      simpa [promptOk] using hp
    by_cases hia : st.initSensorAct = true
    · have heq : ghostStep ⟨st, o, false⟩ Ev.update = ⟨st, o, false⟩ := by
        simp [ghostStep, applyEv, hia, countWrites]
      rw [heq]
      exact ⟨h1, h2, h3, h4, h5, rfl⟩
    · replace hia : st.initSensorAct = false := by
        cases h : st.initSensorAct <;> simp_all
      by_cases hua : st.updateSensorsAct = true
      · simp [GhostInv, ghostStep, applyEv, hia, hua, h1, h2, h3, h4, h5,
          countWrites, hp]
      · replace hua : st.updateSensorsAct = false := by
          cases h : st.updateSensorsAct <;> simp_all
        simp [hia, hua] at h5
        subst h5
        cases hss : st.sensors with
        | nil =>
          simp [GhostInv, ghostStep, applyEv, hia, hua, startUpdateSensors, hss,
            countWrites, h2, h3, h4]
        | cons p rest =>
          simp [GhostInv, ghostStep, applyEv, hia, hua, startUpdateSensors, hss,
            countWrites, h3, hp]
  | reply line =>
    by_cases hps : st.procState = ProcState.running
    · by_cases hia : st.initSensorAct = true
      · have hua : st.updateSensorsAct = false := by
          cases h : st.updateSensorsAct
          · rfl
          · exact absurd ⟨hia, h⟩ h1
        obtain ⟨c, hc⟩ := Option.isSome_iff_exists.mp (h3 hia)
        simp [hia, hua] at h5
        subst h5
        have hw := initStep_writes c line st.sensors
        by_cases hcont : (initStep c line st.sensors).cont.isSome
        · simp [hcont] at hw
          simp [GhostInv, ghostStep, applyEv, hps, hia, hua, hc, hw, hcont]
        · simp [hcont] at hw
          simp [GhostInv, ghostStep, applyEv, hps, hia, hua, hc, hw, hcont]
      · replace hia : st.initSensorAct = false := by
          cases h : st.initSensorAct <;> simp_all
        by_cases hua : st.updateSensorsAct = true
        · obtain ⟨uc0, huc⟩ := Option.isSome_iff_exists.mp (h4 hua)
          obtain ⟨idx⟩ := uc0
          simp [hia, hua] at h5
          subst h5
          have hw := updateStep_writes idx line st.sensors
          by_cases hcont : (updateStep idx line st.sensors).cont.isSome
          · simp [hcont] at hw
            simp [GhostInv, ghostStep, applyEv, hps, hia, hua, huc, hw, hcont]
          · simp [hcont] at hw
            simp [GhostInv, ghostStep, applyEv, hps, hia, hua, huc, hw, hcont]
        · replace hua : st.updateSensorsAct = false := by
            cases h : st.updateSensorsAct <;> simp_all
          simp [hia, hua] at h5
          subst h5
          simp [GhostInv, ghostStep, applyEv, hps, hia, hua, countWrites, h2]
    · have heq : ghostStep ⟨st, o, false⟩ (Ev.reply line) = ⟨st, o, false⟩ := by
        simp [ghostStep, applyEv, hps, countWrites]
      rw [heq]
      exact ⟨h1, h2, h3, h4, h5, rfl⟩

theorem ghostRun_inv (es : List Ev) (g : ProtoGhost)
    (hInv : GhostInv g) (hp : promptTrace g.st es = true) :
    GhostInv (ghostRun g es) := by
  induction es generalizing g with
  | nil => simpa [ghostRun] using hInv
  | cons e rest ih =>
    simp only [promptTrace, Bool.and_eq_true] at hp
    exact ih (ghostStep g e) (ghostStep_inv g e hInv hp.1)
      (by rw [ghostStep_st]; exact hp.2)

theorem initialGhost_inv (absPath relPath : String) :
    GhostInv (initialGhost absPath relPath) := by
  simp [GhostInv, initialGhost, initialScript]

/-- The request written for parameter `k` of sensor `n`. -/
def reqFor (n k : String) : OutAct := OutAct.writeLine (requestLine n k)

/-- Store the replies `rs` into the sensorParameters map under the keys
`ks`, in order (the loop body `sensorParameters[sensorParameter] =
co_await ...`). -/
def storeAll : List (String × String) → List String → List String → List (String × String)
| ps, [], _ => ps
| ps, _ :: _, [] => ps
| ps, k :: ks, r :: rs => storeAll (setParam ps k r) ks rs

/-- Concatenate per-sensor reply batches. -/
def concatAll : List (List String) → List String
| [] => []
| rs :: rss => rs ++ concatAll rss

/-- The descriptors built by the discovery loop for sensor names `ns`,
with per-sensor reply batches `rss`; the parameter map `collected`
persists across iterations exactly as the QMap does. -/
def discSensors : List (String × String) → List String → List (List String) → List SensorProperty
| _, [], _ => []
| _, _ :: _, [] => []
| collected, n :: rest, rs :: rss =>
  let ps2 := storeAll collected sensorParameterKeys rs
  buildSensor n ps2 :: discSensors ps2 rest rss

/-- The requests written by the discovery loop after the first
per-sensor request of the first sensor has already been written. -/
def discTailActs : List String → List OutAct
| [] => []
| n :: rest =>
  tailKeys.map (reqFor n) ++
  (match rest with
   | [] => []
   | n2 :: _ => [reqFor n2 firstKey]) ++ discTailActs rest

/-- All ten parameter requests of one sensor, in the order the loop
issues them. -/
def sensorParamRequests (n : String) : List OutAct :=
  sensorParameterKeys.map (reqFor n)

theorem discActs_join (names : List String) (n : String) :
    reqFor n firstKey :: discTailActs (n :: names) =
      ((n :: names).map sensorParamRequests).flatten := by
  induction names generalizing n with
  | nil =>
    simp [discTailActs, sensorParamRequests, sensorParameterKeys]
  | cons n2 rest ih =>
    have step : discTailActs (n :: n2 :: rest) =
        tailKeys.map (reqFor n) ++ [reqFor n2 firstKey] ++ discTailActs (n2 :: rest) := rfl
    calc reqFor n firstKey :: discTailActs (n :: n2 :: rest)
        = (reqFor n firstKey :: tailKeys.map (reqFor n)) ++
            (reqFor n2 firstKey :: discTailActs (n2 :: rest)) := by
          simp [step]
      _ = sensorParamRequests n ++ ((n2 :: rest).map sensorParamRequests).flatten := by
          rw [ih n2]; simp [sensorParamRequests, sensorParameterKeys]
      _ = ((n :: n2 :: rest).map sensorParamRequests).flatten := by
          simp

/-- One full parameter cycle of the discovery coroutine: from the
suspension awaiting parameter `k` of sensor `current` (keys `keys` still
to go), feeding one reply per parameter stores the replies, builds the
descriptor, appends it, and either suspends on the next sensor's first
parameter or finishes. -/
theorem initParamPhase (keys : List String) :
    ∀ (k : String) (collected : List (String × String)) (rs : List String)
      (pending : List String) (current : String) (s : ScriptState),
    s.procState = ProcState.running → s.initSensorAct = true →
    s.updateSensorsAct = false →
    s.initCont = some (InitCont.awaitParam pending current collected k keys) →
    rs.length = keys.length + 1 →
    let R := runEvents s (rs.map Ev.reply)
    let ps2 := storeAll collected (k :: keys) rs
    R.1.procState = ProcState.running ∧
    R.1.updateSensorsAct = false ∧
    R.1.updCont = s.updCont ∧
    R.1.scriptId = s.scriptId ∧
    R.1.scriptPath = s.scriptPath ∧
    R.1.sensors = s.sensors ++ [buildSensor current ps2] ∧
    (match pending with
     | [] => R.1.initSensorAct = false ∧ R.1.initCont = none ∧
         R.2 = keys.map (reqFor current)
     | n2 :: rest2 => R.1.initSensorAct = true ∧
         R.1.initCont = some (InitCont.awaitParam rest2 n2 ps2 firstKey tailKeys) ∧
         R.2 = keys.map (reqFor current) ++ [reqFor n2 firstKey]) := by
  induction keys with
  | nil =>
    intro k collected rs pending current s hps hia hua hc hlen
    match rs, hlen with
    | [r], _ =>
      cases pending with
      | nil =>
        simp [runEvents, applyEv, hps, hia, hua, hc, initStep, storeAll, reqFor]
      | cons n2 rest2 =>
        simp [runEvents, applyEv, hps, hia, hua, hc, initStep, storeAll, reqFor]
  | cons k2 ks ih =>
    intro k collected rs pending current s hps hia hua hc hlen
    match rs, hlen with
    | r :: rs2, hlen =>
      have hlen2 : rs2.length = ks.length + 1 := by
        simpa using hlen
      have hstep : applyEv s (Ev.reply r) =
          ({ s with scriptReply := r
                    initCont := some (InitCont.awaitParam pending current
                      (setParam collected k r) k2 ks) },
           [reqFor current k2]) := by
        simp [applyEv, hps, hia, hc, initStep, reqFor]
      have := ih k2 (setParam collected k r) rs2 pending current
        ({ s with scriptReply := r
                  initCont := some (InitCont.awaitParam pending current
                    (setParam collected k r) k2 ks) })
        (by simp [hps]) (by simp [hia]) (by simp [hua]) (by simp) hlen2
      simp only [List.map_cons, runEvents, hstep] at *
      obtain ⟨q1, q2, q3, q4, q5, q6, q7⟩ := this
      refine ⟨q1, q2, by simpa using q3, by simpa using q4, by simpa using q5,
        by simpa using q6, ?_⟩
      cases pending with
      | nil =>
        obtain ⟨w1, w2, w3⟩ := q7
        exact ⟨w1, w2, by simp [storeAll, w3]⟩
      | cons n2 rest2 =>
        obtain ⟨w1, w2, w3⟩ := q7
        refine ⟨w1, by simpa [storeAll] using w2, by simp [storeAll, w3]⟩

theorem tailKeys_len : tailKeys.length = 9 := by decide

/-- The whole discovery loop: from the suspension awaiting the first
parameter of `current` (sensor names `pending` still to go), feeding ten
replies per sensor builds and appends one descriptor per sensor in
order, emits the per-sensor requests in key order, and finishes with the
discovery flag cleared. -/
theorem initLoopPhase (pending : List String) :
    ∀ (rss : List (List String)) (collected : List (String × String))
      (current : String) (s : ScriptState),
    (∀ rs ∈ rss, rs.length = 10) → rss.length = pending.length + 1 →
    s.procState = ProcState.running → s.initSensorAct = true →
    s.updateSensorsAct = false →
    s.initCont = some (InitCont.awaitParam pending current collected firstKey tailKeys) →
    let R := runEvents s ((concatAll rss).map Ev.reply)
    R.1.procState = ProcState.running ∧
    R.1.updateSensorsAct = false ∧
    R.1.updCont = s.updCont ∧
    R.1.scriptId = s.scriptId ∧
    R.1.scriptPath = s.scriptPath ∧
    R.1.initSensorAct = false ∧
    R.1.initCont = none ∧
    R.1.sensors = s.sensors ++ discSensors collected (current :: pending) rss ∧
    R.2 = discTailActs (current :: pending) := by
  induction pending with
  | nil =>
    intro rss collected current s hlens hlen hps hia hua hc
    match rss, hlen with
    | [rs], _ =>
      have hrs : rs.length = tailKeys.length + 1 := by
        rw [tailKeys_len]; exact hlens rs (by simp)
      have hA := initParamPhase tailKeys firstKey collected rs [] current s
        hps hia hua hc hrs
      simp only [concatAll, List.append_nil] at *
      obtain ⟨q1, q2, q3, q4, q5, q6, q7, q8, q9⟩ := hA
      exact ⟨q1, q2, q3, q4, q5, q7, q8, by
          simp [discSensors, sensorParameterKeys, q6], by
          simp [discTailActs, q9]⟩
  | cons n2 rest2 ih =>
    intro rss collected current s hlens hlen hps hia hua hc
    match rss, hlen with
    | rs :: rss2, hlen =>
      have hrs : rs.length = tailKeys.length + 1 := by
        rw [tailKeys_len]; exact hlens rs (by simp)
      have hA := initParamPhase tailKeys firstKey collected rs (n2 :: rest2)
        current s hps hia hua hc hrs
      obtain ⟨q1, q2, q3, q4, q5, q6, q7, q8, q9⟩ := hA
      have hsplit : (concatAll (rs :: rss2)).map Ev.reply =
          rs.map Ev.reply ++ (concatAll rss2).map Ev.reply := by
        simp [concatAll]
      have hIH := ih rss2 (storeAll collected (firstKey :: tailKeys) rs) n2
        (runEvents s (rs.map Ev.reply)).1
        (fun r hr => hlens r (by simp [hr]))
        (by simpa using hlen) q1 q7 q2 q8
      obtain ⟨p1, p2, p3, p4, p5, p6, p7, p8, p9⟩ := hIH
      rw [hsplit, runEvents_append]
      refine ⟨p1, p2, by rw [p3, q3], by rw [p4, q4], by rw [p5, q5], p6, p7, ?_, ?_⟩
      · rw [p8, q6]
        simp [discSensors, sensorParameterKeys]
      · rw [p9, q9]
        simp [discTailActs]

/-- Full characterization of one schema discovery from a fresh session:
the Running notification starts the routine (writing `?`), the `?` reply
is tab-split into sensor names, and every sensor is processed with one
request/reply round-trip per parameter in `sensorParameterKeys` order. -/
theorem initSensors_run (absP relP listReply n : String) (rest : List String)
    (rss : List (List String))
    (hsplit : splitTab listReply = n :: rest)
    (hlen : rss.length = (n :: rest).length)
    (hlens : ∀ rs ∈ rss, rs.length = 10) :
    let R := runEvents (initialScript absP relP)
      (Ev.running :: Ev.reply listReply :: (concatAll rss).map Ev.reply)
    R.1.procState = ProcState.running ∧
    R.1.initSensorAct = false ∧
    R.1.updateSensorsAct = false ∧
    R.1.initCont = none ∧
    R.1.updCont = none ∧
    R.1.scriptId = relP ∧
    R.1.scriptPath = absP ∧
    R.1.sensors = discSensors [] (n :: rest) rss ∧
    R.2 = OutAct.writeLine "?" :: reqFor n firstKey :: discTailActs (n :: rest) := by
  intro R
  have hstep1 : applyEv (initialScript absP relP) Ev.running =
      ({ initialScript absP relP with
           procState := ProcState.running
           initSensorAct := true
           initCont := some InitCont.awaitList },
       [OutAct.writeLine "?"]) := by
    simp [applyEv, initialScript, startInitSensors]
  have hstep2 : applyEv ({ initialScript absP relP with
           procState := ProcState.running
           initSensorAct := true
           initCont := some InitCont.awaitList }) (Ev.reply listReply) =
      ({ initialScript absP relP with
           procState := ProcState.running
           initSensorAct := true
           initCont := some (InitCont.awaitParam rest n [] firstKey tailKeys)
           scriptReply := listReply },
       [reqFor n firstKey]) := by
    simp [applyEv, initialScript, initStep, hsplit, reqFor]
  have hL := initLoopPhase rest rss [] n
    ({ initialScript absP relP with
         procState := ProcState.running
         initSensorAct := true
         initCont := some (InitCont.awaitParam rest n [] firstKey tailKeys)
         scriptReply := listReply })
    hlens (by simpa using hlen) rfl rfl rfl rfl
  obtain ⟨p1, p2, p3, p4, p5, p6, p7, p8, p9⟩ := hL
  have hR : R = ((runEvents ({ initialScript absP relP with
         procState := ProcState.running
         initSensorAct := true
         initCont := some (InitCont.awaitParam rest n [] firstKey tailKeys)
         scriptReply := listReply }) ((concatAll rss).map Ev.reply)).1,
      OutAct.writeLine "?" :: reqFor n firstKey ::
        (runEvents ({ initialScript absP relP with
           procState := ProcState.running
           initSensorAct := true
           initCont := some (InitCont.awaitParam rest n [] firstKey tailKeys)
           scriptReply := listReply }) ((concatAll rss).map Ev.reply)).2) := by
    show runEvents _ _ = _
    simp only [runEvents, hstep1, hstep2]
    simp
  rw [hR]
  refine ⟨p1, p6, p2, p7, by simpa using p3, by simpa [initialScript] using p4,
    by simpa [initialScript] using p5, by simpa [initialScript] using p8,
    by rw [p9]⟩

/-- One poll write: coerce the reply into the type of the sensor's
current value and overwrite the value — with the coerced result on
success, with the type's zero value on failure (scripts.cpp lines
244-248). -/
def pollWrite (p : SensorProperty) (r : String) : SensorProperty :=
  { p with value := (qconvert r (mtype p.value)).2 }

theorem getMid (done : List SensorProperty) (p : SensorProperty)
    (todo : List SensorProperty) : (done ++ p :: todo)[done.length]? = some p := by
  induction done with
  | nil => simp
  | cons q rest ih => simpa using ih

theorem getMidSucc (done : List SensorProperty) (p : SensorProperty)
    (todo : List SensorProperty) :
    (done ++ p :: todo)[done.length + 1]? = todo[0]? := by
  induction done with
  | nil => simp
  | cons q rest ih => simpa using ih

theorem setMid (done : List SensorProperty) (p q : SensorProperty)
    (todo : List SensorProperty) :
    (done ++ p :: todo).set done.length q = done ++ q :: todo := by
  induction done with
  | nil => simp
  | cons r rest ih => simp [ih]

theorem runEvents_cons (s : ScriptState) (e : Ev) (es : List Ev) :
    runEvents s (e :: es) =
      ((runEvents (applyEv s e).1 es).1,
       (applyEv s e).2 ++ (runEvents (applyEv s e).1 es).2) := rfl

/-- The poll loop from the suspension awaiting the value of sensor
`p` (position `done.length`), with `todo` still to poll: each reply
overwrites the corresponding sensor's value via `pollWrite`, the next
value request is emitted, and after the last reply the flag clears. -/
theorem pollPhase (todo : List SensorProperty) :
    ∀ (done : List SensorProperty) (p : SensorProperty) (r : String)
      (rs : List String) (s : ScriptState),
    s.procState = ProcState.running → s.initSensorAct = false →
    s.updateSensorsAct = true →
    s.updCont = some (UpdateCont.awaitValue done.length) →
    s.sensors = done ++ p :: todo →
    rs.length = todo.length →
    let R := runEvents s ((r :: rs).map Ev.reply)
    R.1.procState = ProcState.running ∧
    R.1.initSensorAct = false ∧
    R.1.initCont = s.initCont ∧
    R.1.scriptId = s.scriptId ∧
    R.1.scriptPath = s.scriptPath ∧
    R.1.updateSensorsAct = false ∧
    R.1.updCont = none ∧
    R.1.sensors = done ++ List.zipWith pollWrite (p :: todo) (r :: rs) ∧
    R.2 = todo.map (fun q => reqFor q.sensorId "value") := by
  induction todo with
  | nil =>
    intro done p r rs s hps hia hua hc hss hlen
    match rs, hlen with
    | [], _ =>
      have hget := getMid done p []
      have hget2 := getMidSucc done p []
      have hset := setMid done p (pollWrite p r) []
      simp [runEvents, applyEv, hps, hia, hua, hc, updateStep, hss, hget,
        hget2, hset, pollWrite]
  | cons q todo2 ih =>
    intro done p r rs s hps hia hua hc hss hlen
    match rs, hlen with
    | r2 :: rs2, hlen =>
      have hlen2 : rs2.length = todo2.length := by simpa using hlen
      have hget := getMid done p (q :: todo2)
      have hget2 := getMidSucc done p (q :: todo2)
      have hset := setMid done p (pollWrite p r) (q :: todo2)
      have hstep : applyEv s (Ev.reply r) =
          ({ s with scriptReply := r
                    updCont := some (UpdateCont.awaitValue (done.length + 1))
                    sensors := done ++ pollWrite p r :: q :: todo2 },
           [reqFor q.sensorId "value"]) := by
        simp [applyEv, hps, hia, hua, hc, updateStep, hss, hget, hget2, hset,
          pollWrite, reqFor]
      have hIH := ih (done ++ [pollWrite p r]) q r2 rs2 (applyEv s (Ev.reply r)).1
        (by rw [hstep]; simp [hps])
        (by rw [hstep]; simp [hia])
        (by rw [hstep]; simp [hua])
        (by rw [hstep]; simp)
        (by rw [hstep]; simp)
        hlen2
      obtain ⟨p1, p2, p3, p4, p5, p6, p7, p8, p9⟩ := hIH
      rw [List.map_cons, runEvents_cons]
      simp only [hstep] at p1 p2 p3 p4 p5 p6 p7 p8 p9 ⊢
      refine ⟨p1, p2, by simpa using p3, by simpa using p4, by simpa using p5,
        p6, p7, ?_, ?_⟩
      · rw [p8]; simp
      · rw [p9]; simp

/-- Full characterization of one `update()` poll cycle from an idle
session: one request `(sensor-id, "value")` per sensor in list order,
each value overwritten via `pollWrite`, and the activity flag cleared at
the end. -/
theorem updateSensors_run (s : ScriptState) (rs : List String)
    (hps : s.procState = ProcState.running)
    (hia : s.initSensorAct = false)
    (hua : s.updateSensorsAct = false)
    (hlen : rs.length = s.sensors.length) :
    (runEvents s (Ev.update :: rs.map Ev.reply)).1.procState = ProcState.running ∧
    (runEvents s (Ev.update :: rs.map Ev.reply)).1.initSensorAct = false ∧
    (runEvents s (Ev.update :: rs.map Ev.reply)).1.updateSensorsAct = false ∧
    (runEvents s (Ev.update :: rs.map Ev.reply)).1.scriptId = s.scriptId ∧
    (runEvents s (Ev.update :: rs.map Ev.reply)).1.scriptPath = s.scriptPath ∧
    (runEvents s (Ev.update :: rs.map Ev.reply)).1.sensors =
      List.zipWith pollWrite s.sensors rs ∧
    (runEvents s (Ev.update :: rs.map Ev.reply)).2 =
      s.sensors.map (fun q => reqFor q.sensorId "value") := by
  cases hss : s.sensors with
  | nil =>
    rw [hss] at hlen
    match rs, hlen with
    | [], _ =>
      have hstep : applyEv s Ev.update = (s, []) := by
        simp [applyEv, hia, hua, startUpdateSensors, hss]
      simp [runEvents, hstep, hps, hia, hua, hss]
  | cons p todo =>
    rw [hss] at hlen
    match rs, hlen with
    | r :: rs2, hlen =>
      have hlen2 : rs2.length = todo.length := by simpa using hlen
      have hstep : applyEv s Ev.update =
          ({ s with updateSensorsAct := true
                    updCont := some (UpdateCont.awaitValue 0) },
           [reqFor p.sensorId "value"]) := by
        simp [applyEv, hia, hua, startUpdateSensors, hss, reqFor]
      have hP := pollPhase todo [] p r rs2 (applyEv s Ev.update).1
        (by simp [hstep, hps])
        (by simp [hstep, hia])
        (by simp [hstep])
        (by simp [hstep])
        (by simp [hstep, hss])
        hlen2
      obtain ⟨p1, p2, p3, p4, p5, p6, p7, p8, p9⟩ := hP
      rw [show (r :: rs2).map Ev.reply = Ev.reply r :: rs2.map Ev.reply from rfl]
      rw [runEvents_cons]
      simp only [List.map_cons] at p1 p2 p3 p4 p5 p6 p7 p8 p9
      simp only [hstep] at p1 p2 p3 p4 p5 p6 p7 p8 p9 ⊢
      refine ⟨p1, p2, p6, by simpa using p4, by simpa using p5, ?_, ?_⟩
      · rw [p8]; simp
      · rw [p9]; simp

theorem pumpInit_true (feed : List WaitOutcome) :
    ∀ s : ScriptState, (pumpInit s feed).1 = true →
      (pumpInit s feed).2.initSensorAct = false := by
  induction feed with
  | nil =>
    intro s h
    cases hia : s.initSensorAct <;> simp [pumpInit, hia] at h ⊢
  | cons o rest ih =>
    intro s h
    cases hia : s.initSensorAct with
    | false => simp [pumpInit, hia]
    | true =>
      cases o with
      | wfail => simp [pumpInit, hia] at h
      | wlines ls =>
        simp only [pumpInit, hia, if_true] at h ⊢
        exact ih _ h

theorem initStep_sensors (c : InitCont) (reply : String) (ss : List SensorProperty) :
    ∃ tl, (initStep c reply ss).sensors = ss ++ tl := by
  cases c with
  | awaitList =>
    cases h : splitTab reply with
    | nil => exact ⟨[], by simp [initStep, h]⟩
    | cons n rest => exact ⟨[], by simp [initStep, h]⟩
  | awaitParam pending current collected key rest =>
    cases rest with
    | cons k2 ks => exact ⟨[], by simp [initStep]⟩
    | nil =>
      cases pending with
      | nil =>
        exact ⟨[buildSensor current (setParam collected key reply)],
          by simp [initStep]⟩
      | cons n2 rest2 =>
        exact ⟨[buildSensor current (setParam collected key reply)],
          by simp [initStep]⟩

theorem sensorIds_set (l : List SensorProperty) :
    ∀ (n : Nat) (p : SensorProperty) (v : MValue), l[n]? = some p →
      (l.set n { p with value := v }).map SensorProperty.sensorId =
        l.map SensorProperty.sensorId := by
  induction l with
  | nil => intro n p v h; simp at h
  | cons q rest ih =>
    intro n p v h
    cases n with
    | zero =>
      simp at h
      subst h
      simp
    | succ m =>
      simp at h
      simp [ih m p v h]

theorem applyEv_append_only (s : ScriptState) (e : Ev) :
    ∃ tl, (applyEv s e).1.sensors.map SensorProperty.sensorId =
      s.sensors.map SensorProperty.sensorId ++ tl := by
  cases e with
  | running =>
    by_cases hps : s.procState = ProcState.starting <;>
      exact ⟨[], by simp [applyEv, hps, startInitSensors]⟩
  | restart => exact ⟨[], by simp [applyEv]⟩
  | update =>
    by_cases hcond : (!s.updateSensorsAct && !s.initSensorAct) = true
    · cases hss : s.sensors with
      | nil => exact ⟨[], by simp [applyEv, hcond, startUpdateSensors, hss]⟩
      | cons p rest => exact ⟨[], by simp [applyEv, hcond, startUpdateSensors, hss]⟩
    · exact ⟨[], by simp [applyEv, hcond]⟩
  | reply line =>
    by_cases hps : s.procState = ProcState.running
    · by_cases hia : s.initSensorAct = true
      · cases hc : s.initCont with
        | none => exact ⟨[], by simp [applyEv, hps, hia, hc]⟩
        | some c =>
          obtain ⟨tl, htl⟩ := initStep_sensors c line s.sensors
          exact ⟨tl.map SensorProperty.sensorId, by
            simp [applyEv, hps, hia, hc, htl]⟩
      · replace hia : s.initSensorAct = false := by
          cases h : s.initSensorAct <;> simp_all
        by_cases hua : s.updateSensorsAct = true
        · cases hc : s.updCont with
          | none => exact ⟨[], by simp [applyEv, hps, hia, hua, hc]⟩
          | some uc =>
            obtain ⟨idx⟩ := uc
            cases hget : s.sensors[idx]? with
            | none =>
              exact ⟨[], by simp [applyEv, hps, hia, hua, hc, updateStep, hget]⟩
            | some p =>
              refine ⟨[], ?_⟩
              cases hget2 : s.sensors[idx+1]? with
              | none =>
                simp [applyEv, hps, hia, hua, hc, updateStep, hget, hget2,
                  sensorIds_set s.sensors idx p _ hget]
              | some q =>
                simp [applyEv, hps, hia, hua, hc, updateStep, hget, hget2,
                  sensorIds_set s.sensors idx p _ hget]
        · exact ⟨[], by simp [applyEv, hps, hia, hua]⟩
    · exact ⟨[], by simp [applyEv, hps]⟩

/-- The counterexample trace for the mutual-exclusion and half-duplex
claims: a successful discovery of a single sensor `cpu`, then a
`restart()` whose `waitForStarted` wait has timed out (so the Running
notification of the new process is still pending), then a host tick and
the late Running notification. -/
def ceTrace : List Ev :=
  [Ev.running, Ev.reply "cpu"] ++ List.replicate 10 (Ev.reply "") ++
    [Ev.restart, Ev.update, Ev.running]

/-- A benign trace: discovery of one sensor, one poll round-trip, and a
restart, with every `update()` delivered while the process runs. -/
def okTrace : List Ev :=
  [Ev.running, Ev.reply "cpu"] ++ List.replicate 10 (Ev.reply "") ++
    [Ev.update, Ev.reply "7", Ev.restart]

/-- A session in the middle of schema discovery. -/
def busySession : ScriptState :=
  { initialScript "/scripts/cpu.sh" "cpu.sh" with
      procState := ProcState.running
      initSensorAct := true
      initCont := some InitCont.awaitList }

/-- An integer sensor descriptor as discovery would build it from
`variant_type=int`. -/
def intSensor (sensorName : String) (v : Int) : SensorProperty :=
  { sensorId := sensorName
    name := sensorName
    shortName := none
    pfx := none
    description := none
    minText := none
    maxText := none
    unit := none
    variantType := VType.tInt
    initialValue := "0"
    value := MValue.mInt v }

/-- An idle session holding two integer sensors. -/
def pollSession : ScriptState :=
  { initialScript "/scripts/cpu.sh" "cpu.sh" with
      procState := ProcState.running
      sensors := [intSensor "cpu" 42, intSensor "mem" 7] }

example : (runEvents (initialScript "/r/s" "s") ceTrace).1.initSensorAct = true := by decide
example : (runEvents (initialScript "/r/s" "s") ceTrace).1.updateSensorsAct = true := by decide
example : (ghostRun (initialGhost "/r/s" "s") ceTrace).violated = true := by decide
example : promptTrace (initialScript "/r/s" "s") okTrace = true := by decide
example : (ghostRun (initialGhost "/r/s" "s") okTrace).violated = false := by decide

/-- C1 (counterexample): in the execution where a restart's
`waitForStarted` wait has timed out, a host `update()` tick writes a
poll request to the new process before its Running notification
arrives, and the notification then starts discovery, which writes `?`
while the poll request is still unanswered: two request lines
outstanding at once. -/
theorem c1_counterexample :
    (ghostRun (initialGhost "/scripts/cpu.sh" "cpu.sh") ceTrace).violated = true := by
  decide

/-- C1 (amended): in every execution in which no `update()` tick is
delivered while the child process is between `start()` and its Running
notification — which the synchronous `waitInit` after every start
guarantees whenever its `waitForStarted` succeeds — a request line is
never written while a previously written request is unanswered
(half-duplex, FIFO request/reply pairing, at most one outstanding). -/
theorem c1_half_duplex (absPath relPath : String) (es : List Ev)
    (hp : promptTrace (initialScript absPath relPath) es = true) :
    (ghostRun (initialGhost absPath relPath) es).violated = false :=
  (ghostRun_inv es (initialGhost absPath relPath)
    (initialGhost_inv absPath relPath) hp).2.2.2.2.2

theorem c1_half_duplex_witness :
    promptTrace (initialScript "/scripts/cpu.sh" "cpu.sh") okTrace = true ∧
    (ghostRun (initialGhost "/scripts/cpu.sh" "cpu.sh") okTrace).violated = false :=
  ⟨by decide, c1_half_duplex "/scripts/cpu.sh" "cpu.sh" okTrace (by decide)⟩

/-- C2 (counterexample): the same delayed-start execution makes
`initSensorAct` and `updateSensorsAct` both true: `stateChanged(Running)`
starts discovery unconditionally while the poll started by the
intervening `update()` is still active. -/
theorem c2_counterexample :
    (runEvents (initialScript "/scripts/cpu.sh" "cpu.sh") ceTrace).1.initSensorAct = true ∧
    (runEvents (initialScript "/scripts/cpu.sh" "cpu.sh") ceTrace).1.updateSensorsAct = true := by
  constructor
  · decide
  · decide

/-- C2 (amended): `update()` while either routine is active changes no
session state and writes nothing; and in every execution in which no
`update()` tick is delivered while the child process is between
`start()` and its Running notification, at most one of discovery and
polling is active in every reachable state. -/
theorem c2_mutual_exclusion :
    (∀ s : ScriptState, s.initSensorAct = true ∨ s.updateSensorsAct = true →
      applyEv s Ev.update = (s, [])) ∧
    (∀ (absPath relPath : String) (es : List Ev),
      promptTrace (initialScript absPath relPath) es = true →
      ¬((runEvents (initialScript absPath relPath) es).1.initSensorAct = true ∧
        (runEvents (initialScript absPath relPath) es).1.updateSensorsAct = true)) := by
  constructor
  · intro s hs
    rcases hs with h | h <;> simp [applyEv, h]
  · intro absPath relPath es hp
    have h := (ghostRun_inv es (initialGhost absPath relPath)
      (initialGhost_inv absPath relPath) hp).1
    rwa [ghostRun_st] at h

theorem c2_mutual_exclusion_witness :
    applyEv busySession Ev.update = (busySession, []) ∧
    ¬((runEvents (initialScript "/scripts/cpu.sh" "cpu.sh") okTrace).1.initSensorAct = true ∧
      (runEvents (initialScript "/scripts/cpu.sh" "cpu.sh") okTrace).1.updateSensorsAct = true) :=
  ⟨c2_mutual_exclusion.1 busySession (Or.inl (by decide)),
   c2_mutual_exclusion.2 "/scripts/cpu.sh" "cpu.sh" okTrace (by decide)⟩

/-- C3 (counterexample): after a `?` reply of `cpu`, the first
per-sensor parameter request written is `cpu\tdescription`, not
`cpu\tinitial_value`: the loop iterates `sensorParameters.keys()`, a
QMap, whose keys come out in ascending string order rather than the
insertion order the claim states. -/
theorem c3_counterexample :
    (runEvents (initialScript "/scripts/cpu.sh" "cpu.sh")
        [Ev.running, Ev.reply "cpu"]).2 =
      [OutAct.writeLine "?", OutAct.writeLine "cpu\tdescription"] ∧
    OutAct.writeLine "cpu\tdescription" ≠ OutAct.writeLine "cpu\tinitial_value" := by
  constructor
  · decide
  · decide

/-- C3 (amended): during schema discovery, for every sensor name in the
`?` reply, the ten metadata parameters are queried in exactly the QMap
key order `description, initial_value, max, min, name, prefix,
short_name, unit, value, variant_type`, one request/reply round-trip per
parameter, deterministically and regardless of the reply contents. -/
theorem c3_param_order (absPath relPath listReply n : String)
    (rest : List String) (rss : List (List String))
    (hsplit : splitTab listReply = n :: rest)
    (hlen : rss.length = (n :: rest).length)
    (hlens : ∀ rs ∈ rss, rs.length = 10) :
    (runEvents (initialScript absPath relPath)
        (Ev.running :: Ev.reply listReply :: (concatAll rss).map Ev.reply)).2 =
      OutAct.writeLine "?" :: ((n :: rest).map sensorParamRequests).flatten ∧
    sensorParameterKeys =
      [ "description", "initial_value", "max", "min", "name", "prefix"
      , "short_name", "unit", "value", "variant_type" ] := by
  constructor
  · have h := initSensors_run absPath relPath listReply n rest rss hsplit hlen hlens
    rw [h.2.2.2.2.2.2.2.2, discActs_join]
  · rfl

theorem c3_param_order_witness :
    (runEvents (initialScript "/scripts/cpu.sh" "cpu.sh")
        (Ev.running :: Ev.reply "cpu" ::
          (concatAll [List.replicate 10 ""]).map Ev.reply)).2 =
      OutAct.writeLine "?" :: (["cpu"].map sensorParamRequests).flatten ∧
    sensorParameterKeys =
      [ "description", "initial_value", "max", "min", "name", "prefix"
      , "short_name", "unit", "value", "variant_type" ] :=
  c3_param_order "/scripts/cpu.sh" "cpu.sh" "cpu" "cpu" []
    [List.replicate 10 ""] (by decide) (by decide) (by decide)

/-- C4: given the empty reply to `?`, the code does not create zero
sensors: `QString::split` on the empty string yields one empty token, so
discovery issues all ten parameter requests for the empty sensor name
(first request line `\tdescription`) and appends one descriptor whose id
is the empty string. -/
theorem c4_empty_reply :
    (runEvents (initialScript "/scripts/cpu.sh" "cpu.sh")
        ([Ev.running, Ev.reply ""] ++ List.replicate 10 (Ev.reply ""))).1.sensors.map
        SensorProperty.sensorId = [""] ∧
    (runEvents (initialScript "/scripts/cpu.sh" "cpu.sh")
        ([Ev.running, Ev.reply ""] ++ List.replicate 10 (Ev.reply ""))).2 =
      OutAct.writeLine "?" ::
        sensorParameterKeys.map (fun k => OutAct.writeLine ("\t" ++ k)) := by
  constructor
  · decide
  · decide

/-- C5: from an idle session, one `update()` poll sends `(sensor-id,
"value")` for every sensor in discovery order, one round-trip each, and
always overwrites each sensor's value with the reply coerced to the type
of the sensor's current value — the declared `variant_type`, since every
descriptor built by discovery stores a value carrying exactly its
declared type — falling back to the type's zero value on coercion
failure (`pollWrite` is `QVariant::convert` + unconditional
`setValue`). -/
theorem c5_poll_overwrites (s : ScriptState) (rs : List String)
    (hps : s.procState = ProcState.running)
    (hia : s.initSensorAct = false)
    (hua : s.updateSensorsAct = false)
    (hlen : rs.length = s.sensors.length) :
    (runEvents s (Ev.update :: rs.map Ev.reply)).2 =
      s.sensors.map (fun q => reqFor q.sensorId "value") ∧
    (runEvents s (Ev.update :: rs.map Ev.reply)).1.sensors =
      List.zipWith pollWrite s.sensors rs ∧
    (runEvents s (Ev.update :: rs.map Ev.reply)).1.updateSensorsAct = false ∧
    (∀ (p : SensorProperty) (r : String),
      (pollWrite p r).value = (qconvert r (mtype p.value)).2) ∧
    (∀ (sensorName : String) (ps : List (String × String)),
      mtype (buildSensor sensorName ps).value =
        (buildSensor sensorName ps).variantType) := by
  have h := updateSensors_run s rs hps hia hua hlen
  exact ⟨h.2.2.2.2.2.2, h.2.2.2.2.2.1, h.2.2.1,
    fun p r => rfl,
    fun sensorName ps => by simp [buildSensor, mtype_qconvert]⟩

theorem c5_poll_overwrites_witness :
    (runEvents pollSession (Ev.update :: ["41", "8"].map Ev.reply)).2 =
      pollSession.sensors.map (fun q => reqFor q.sensorId "value") ∧
    (runEvents pollSession (Ev.update :: ["41", "8"].map Ev.reply)).1.sensors =
      List.zipWith pollWrite pollSession.sensors ["41", "8"] ∧
    (runEvents pollSession (Ev.update :: ["41", "8"].map Ev.reply)).1.updateSensorsAct = false ∧
    (∀ (p : SensorProperty) (r : String),
      (pollWrite p r).value = (qconvert r (mtype p.value)).2) ∧
    (∀ (sensorName : String) (ps : List (String × String)),
      mtype (buildSensor sensorName ps).value =
        (buildSensor sensorName ps).variantType) :=
  c5_poll_overwrites pollSession ["41", "8"] (by decide) (by decide) (by decide)
    (by decide)

/-- C6: when the poll reply for a sensor whose stored value has integer
type is text that `toInt` rejects, the sensor's value becomes the
integer zero, and the loop still polls every remaining sensor (one
request per sensor over the whole list, flag cleared at the end). -/
theorem c6_coercion_fallback (s : ScriptState)
    (done todo : List SensorProperty) (p : SensorProperty)
    (rs1 rs2 : List String) (r : String)
    (hps : s.procState = ProcState.running)
    (hia : s.initSensorAct = false)
    (hua : s.updateSensorsAct = false)
    (hss : s.sensors = done ++ p :: todo)
    (hlen1 : rs1.length = done.length)
    (hlen2 : rs2.length = todo.length)
    (htype : mtype p.value = VType.tInt)
    (hbad : parseCInt? r = none) :
    (runEvents s (Ev.update :: (rs1 ++ r :: rs2).map Ev.reply)).1.sensors =
      List.zipWith pollWrite done rs1 ++
        ({ p with value := MValue.mInt 0 } :: List.zipWith pollWrite todo rs2) ∧
    (runEvents s (Ev.update :: (rs1 ++ r :: rs2).map Ev.reply)).2 =
      (done ++ p :: todo).map (fun q => reqFor q.sensorId "value") ∧
    (runEvents s (Ev.update :: (rs1 ++ r :: rs2).map Ev.reply)).1.updateSensorsAct = false := by
  have hlen : (rs1 ++ r :: rs2).length = s.sensors.length := by
    simp [hss, hlen1, hlen2]
  have h := updateSensors_run s (rs1 ++ r :: rs2) hps hia hua hlen
  have hzip : List.zipWith pollWrite s.sensors (rs1 ++ r :: rs2) =
      List.zipWith pollWrite done rs1 ++
        ({ p with value := MValue.mInt 0 } :: List.zipWith pollWrite todo rs2) := by
    rw [hss, List.zipWith_append pollWrite done (p :: todo) rs1 (r :: rs2) hlen1.symm]
    have hpw : pollWrite p r = { p with value := MValue.mInt 0 } := by
      simp [pollWrite, htype, qconvert, hbad]
    simp [hpw]
  exact ⟨by rw [h.2.2.2.2.2.1, hzip], by rw [h.2.2.2.2.2.2, hss], h.2.2.1⟩

theorem c6_coercion_fallback_witness :
    (runEvents pollSession (Ev.update :: ([] ++ "oops" :: ["99"]).map Ev.reply)).1.sensors =
      List.zipWith pollWrite ([] : List SensorProperty) ([] : List String) ++
        ({ intSensor "cpu" 42 with value := MValue.mInt 0 } ::
          List.zipWith pollWrite [intSensor "mem" 7] ["99"]) ∧
    (runEvents pollSession (Ev.update :: ([] ++ "oops" :: ["99"]).map Ev.reply)).2 =
      (([] : List SensorProperty) ++ intSensor "cpu" 42 :: [intSensor "mem" 7]).map
        (fun q => reqFor q.sensorId "value") ∧
    (runEvents pollSession (Ev.update :: ([] ++ "oops" :: ["99"]).map Ev.reply)).1.updateSensorsAct = false :=
  c6_coercion_fallback pollSession [] [intSensor "mem" 7] (intSensor "cpu" 42)
    [] ["99"] "oops" (by decide) (by decide) (by decide) (by decide) (by decide)
    (by decide) (by decide) (by decide)

/-- C7: the unit resolver maps every entry of the Str2Unit table to its
enumeration value, and every code outside the table — the empty string
included — resolves to `UnitInvalid` rather than raising an error. -/
theorem c7_unit_mapping :
    (∀ code : String, code ∉ str2UnitTable.map Prod.fst →
      str2Unit code = KUnit.unitInvalid) ∧
    str2Unit "*" = KUnit.unitInvalid ∧
    str2Unit "-" = KUnit.unitNone ∧
    str2Unit "B" = KUnit.unitByte ∧
    str2Unit "B/s" = KUnit.unitByteRate ∧
    str2Unit "Hz" = KUnit.unitHertz ∧
    str2Unit "Timestamp" = KUnit.unitBootTimestamp ∧
    str2Unit "s" = KUnit.unitSecond ∧
    str2Unit "Time" = KUnit.unitTime ∧
    str2Unit "Ticks" = KUnit.unitTicks ∧
    str2Unit "C" = KUnit.unitCelsius ∧
    str2Unit "b/s" = KUnit.unitBitRate ∧
    str2Unit "dBm" = KUnit.unitDecibelMilliWatts ∧
    str2Unit "%" = KUnit.unitPercent ∧
    str2Unit "rate" = KUnit.unitRate ∧
    str2Unit "rpm" = KUnit.unitRpm ∧
    str2Unit "V" = KUnit.unitVolt ∧
    str2Unit "W" = KUnit.unitWatt ∧
    str2Unit "Wh" = KUnit.unitWattHour ∧
    str2Unit "A" = KUnit.unitAmpere := by
  constructor
  · intro code hc
    simp only [str2UnitTable, List.map_cons, List.map_nil, List.mem_cons,
      List.mem_singleton, not_or] at hc
    simp [str2Unit, str2UnitTable, unitOf, hc]
  · decide

theorem c7_unit_mapping_witness :
    ("bogus" ∉ str2UnitTable.map Prod.fst) ∧
    str2Unit "bogus" = KUnit.unitInvalid :=
  ⟨by decide, c7_unit_mapping.1 "bogus" (by decide)⟩

/-- C8: `restart()` closes the current child process, re-spawns the same
executable path, clears both activity flags and discards both
continuations without running them (no descriptor is appended, no
request is written); the sensor list and the session identity are left
untouched. -/
theorem c8_restart (s : ScriptState) :
    applyEv s Ev.restart =
      ({ s with procState := ProcState.starting
                initSensorAct := false
                updateSensorsAct := false
                initCont := none
                updCont := none },
       [OutAct.closeProc, OutAct.spawnProc s.scriptPath]) ∧
    (applyEv s Ev.restart).1.sensors = s.sensors ∧
    (applyEv s Ev.restart).1.scriptId = s.scriptId ∧
    (applyEv s Ev.restart).1.scriptPath = s.scriptPath ∧
    countWrites (applyEv s Ev.restart).2 = 0 :=
  ⟨rfl, rfl, rfl, rfl, rfl⟩

/-- C9: `waitInit` returns true only with schema discovery fully
completed (`initSensorAct` back to false), for every schedule of
readiness events, however the reply lines are split across them; it
returns false, leaving the state unchanged, when the process fails to
start or never becomes readable. -/
theorem c9_waitInit (s : ScriptState) (startOk : Bool) (feed : List WaitOutcome) :
    ((waitInit s startOk feed).1 = true →
      (waitInit s startOk feed).2.initSensorAct = false) ∧
    (s.procState = ProcState.starting → startOk = false →
      waitInit s startOk feed = (false, s)) ∧
    (s.procState = ProcState.notRunning → waitInit s startOk feed = (false, s)) := by
  refine ⟨?_, ?_, ?_⟩
  · intro h
    cases hps : s.procState with
    | notRunning => simp [waitInit, hps] at h
    | starting =>
      cases hok : startOk with
      | false => simp [waitInit, hps, hok] at h
      | true =>
        simp only [waitInit, hps, hok, if_true] at h ⊢
        exact pumpInit_true feed _ h
    | running =>
      simp only [waitInit, hps] at h ⊢
      exact pumpInit_true feed s h
  · intro hps hok
    simp [waitInit, hps, hok]
  · intro hps
    simp [waitInit, hps]

/-- A readiness schedule delivering the discovery replies split across
three separate read events. -/
def feedSplit : List WaitOutcome :=
  [ WaitOutcome.wlines ["cpu"]
  , WaitOutcome.wlines (List.replicate 5 "")
  , WaitOutcome.wlines (List.replicate 5 "") ]

theorem c9_waitInit_witness :
    (waitInit (initialScript "/scripts/cpu.sh" "cpu.sh") true feedSplit).1 = true ∧
    (waitInit (initialScript "/scripts/cpu.sh" "cpu.sh") true feedSplit).2.initSensorAct = false ∧
    waitInit (initialScript "/scripts/cpu.sh" "cpu.sh") false [] =
      (false, initialScript "/scripts/cpu.sh" "cpu.sh") :=
  ⟨by decide,
   (c9_waitInit (initialScript "/scripts/cpu.sh" "cpu.sh") true feedSplit).1 (by decide),
   (c9_waitInit (initialScript "/scripts/cpu.sh" "cpu.sh") false []).2.1 rfl rfl⟩

/-- C10: across every sequence of session events the projection of the
sensor list to ids only ever grows by appending at the tail — no event
removes or reorders descriptors — and `restart()` specifically leaves
the sensor list untouched. -/
theorem c10_append_only :
    (∀ (s : ScriptState) (es : List Ev),
      ∃ tl, (runEvents s es).1.sensors.map SensorProperty.sensorId =
        s.sensors.map SensorProperty.sensorId ++ tl) ∧
    (∀ s : ScriptState, (applyEv s Ev.restart).1.sensors = s.sensors) := by
  constructor
  · intro s es
    induction es generalizing s with
    | nil => exact ⟨[], by simp [runEvents]⟩
    | cons e rest ih =>
      obtain ⟨tl1, h1⟩ := applyEv_append_only s e
      obtain ⟨tl2, h2⟩ := ih (applyEv s e).1
      refine ⟨tl1 ++ tl2, ?_⟩
      show (runEvents (applyEv s e).1 rest).1.sensors.map SensorProperty.sensorId = _
      rw [h2, h1, List.append_assoc]
  · intro s
    rfl
